import Mathlib

/-!
Verification of the ReachInbox email-scheduler backend.

This file gives a shallow embedding of the scheduling, persistence,
rate-limiting and worker-execution core of the repository:

* `scheduleEmails`        — the `POST /emails/schedule` controller
  (validation, schedule-row creation, per-recipient job fan-out);
* `updateEmailJobStatus`, `updateScheduleCounts`
                          — the Store writes of `emailService.ts`,
  with Prisma update semantics (an `undefined` field is left untouched);
* `checkRateLimit`, `incrementRateLimit`
                          — the Redis/DB rate limiter of
  `rateLimitService.ts`, for a fixed current hour window and sender
  (`kv = none` models an absent or expired Redis key);
* `sendEmail`             — the nodemailer wrapper, total over transport
  failures (the transporter's behaviour is a parameter);
* `processEmailJob`       — the BullMQ worker processor of
  `queueService.ts`, producing the list of observable effects (events),
  the new Store state, the new rate-limit state and the
  thrown-or-returned outcome;
* `scheduleEmailJob`      — the enqueue helper with its delay clamp;
* `emailsQueueOptions`, `bullmqRuns`
                          — the queue's retry configuration and the
  queue library's retry contract under those options.

Timestamps are integer epoch milliseconds; `createdAt`/`updatedAt`
audit columns and the BullMQ-job-id backfill column (which never touch
`status`, `sentTime` or the campaign counters) are omitted.
-/

namespace EmailScheduler

/-- JS whitespace characters (the common ASCII subset of `\s`). -/
def jsSpace (c : Char) : Bool :=
  c = ' ' || c = '\t' || c = '\n' || c = '\r' || c = '\x0b' || c = '\x0c'

/-- Drop leading and trailing whitespace from a character list. -/
def trimChars (cs : List Char) : List Char :=
  ((cs.dropWhile jsSpace).reverse.dropWhile jsSpace).reverse

/-- Model of JavaScript `String.prototype.trim`. -/
def jsTrim (s : String) : String :=
  String.mk (trimChars s.data)

/-- Model of the test of the regular expression
`^[^\s@]+@[^\s@]+\.[^\s@]+$` used by both the controller and the
client-side CSV parser: the string is `A@B.C` with `A`, `B`, `C`
non-empty and free of whitespace and further `@` signs (`B` and `C` may
contain further dots, so the domain condition is: at least one dot with
non-empty text before the first and after the last). -/
def emailRegexTest (s : String) : Bool :=
  match s.data.splitOn '@' with
  | [localPart, domain] =>
      (!localPart.isEmpty) && (!domain.isEmpty) &&
      localPart.all (fun c => !jsSpace c) && domain.all (fun c => !jsSpace c) &&
      (match domain.splitOn '.' with
       | [_] => false
       | parts => (!(parts.headD []).isEmpty) && (!(parts.getLastD []).isEmpty))
  | _ => false

example : emailRegexTest "a@x.io" = true := by decide
example : emailRegexTest "" = false := by decide
example : emailRegexTest "a @x.io" = false := by decide
example : jsTrim " A@x.io" = "A@x.io" := by decide

/-- Status column of an `EmailSchedule` row
(strings `"scheduled"`, `"in-progress"`, `"completed"` in the source). -/
inductive ScheduleStatus
  | scheduled
  | inProgress
  | completed
deriving DecidableEq

/-- Status column of an `EmailJob` row
(strings `"pending"`, `"sent"`, `"failed"` in the source). -/
inductive JobStatus
  | pending
  | sent
  | failed
deriving DecidableEq

/-- An `EmailSchedule` (campaign) row as created and updated by the
backend.  `recipients` is stored JSON-encoded in the source; it is kept
as a list here.  `createdAt`/`updatedAt` are omitted. -/
structure EmailScheduleRow where
  id : String
  userId : String
  subject : String
  body : String
  recipients : List String
  startTime : Int
  delayMs : Int
  hourlyLimit : Nat
  totalCount : Nat
  sentCount : Nat
  failedCount : Nat
  status : ScheduleStatus
deriving DecidableEq

/-- An `EmailJob` row.  The BullMQ-job-id backfill column and the
timestamp audit columns are omitted (no code path reads them for the
properties below, and none of the modelled writes touch them). -/
structure EmailJobRow where
  id : String
  scheduleId : String
  userId : String
  recipient : String
  subject : String
  body : String
  scheduledTime : Int
  status : JobStatus
  sentTime : Option Int
  errorMessage : Option String
deriving DecidableEq

/-- The request body of `POST /emails/schedule` after JSON parsing,
together with the `x-user-id` header.  `startTime = none` models a
missing or unparsable (`isNaN`) start time; `some t` is the parsed
epoch-millisecond instant.  Defaults mirror the controller's
destructuring defaults. -/
structure ScheduleRequest where
  subject : String
  body : String
  recipients : List String
  startTime : Option Int
  delayMs : Int := 2000
  hourlyLimit : Nat := 200
  userId : String
deriving DecidableEq

/-- `validRecipients` of the controller: trim each recipient and drop
falsy (empty) strings.  Note: no deduplication is performed. -/
def validRecipientsOf (recipients : List String) : List String :=
  (recipients.map jsTrim).filter (fun e => e ≠ "")

/-- The `EmailSchedule` row `prisma.emailSchedule.create` inserts for
an accepted request (with `start` the parsed `startTime`). -/
def mkScheduleRow (req : ScheduleRequest) (scheduleId : String)
    (start : Int) : EmailScheduleRow :=
  let valid := validRecipientsOf req.recipients
  { id := scheduleId, userId := req.userId, subject := req.subject,
    body := req.body, recipients := valid, startTime := start,
    delayMs := req.delayMs, hourlyLimit := req.hourlyLimit,
    totalCount := valid.length, sentCount := 0, failedCount := 0,
    status := .scheduled }

/-- The `EmailJob` rows inserted by the controller's fan-out loop:
one row per valid recipient, in order, with
`scheduledTime = startTime + i * delayMs` and initial status `pending`. -/
def mkJobRows (req : ScheduleRequest) (scheduleId : String)
    (jobIds : List String) (start : Int) : List EmailJobRow :=
  let valid := validRecipientsOf req.recipients
  (List.range valid.length).map (fun i =>
    { id := jobIds.getD i "", scheduleId := scheduleId,
      userId := req.userId, recipient := valid.getD i "",
      subject := req.subject, body := req.body,
      scheduledTime := start + (i : Int) * req.delayMs,
      status := .pending, sentTime := none, errorMessage := none })

/-- The `scheduleEmails` controller: validation (401 without a user id,
400 on missing fields, unparsable `startTime`, or a recipient failing
the email pattern on its trimmed form), then creation of the schedule
row and the per-recipient job rows.  `scheduleId` and `jobIds` stand
for the fresh `uuidv4()` values drawn by the controller.  Errors are
the HTTP status codes of the rejecting responses. -/
def scheduleEmails (req : ScheduleRequest) (scheduleId : String)
    (jobIds : List String) : Except Nat (EmailScheduleRow × List EmailJobRow) :=
  if req.userId = "" then .error 401
  else if req.subject = "" || req.body = "" || req.recipients.isEmpty then .error 400
  else
    match req.startTime with
    | none => .error 400
    | some start =>
      if (req.recipients.filter (fun e => !emailRegexTest (jsTrim e))).isEmpty = false then
        .error 400
      else
        .ok (mkScheduleRow req scheduleId start, mkJobRows req scheduleId jobIds start)

/-- The Store state relevant to one campaign: its schedule row and the
`EmailJob` table. -/
structure SystemState where
  schedule : EmailScheduleRow
  jobs : List EmailJobRow
deriving DecidableEq

/-- The optional fields of `updateEmailJobStatus`; `none` models a
field left `undefined` (which Prisma omits from the update). -/
structure UpdateOptions where
  sentTime : Option Int := none
  errorMessage : Option String := none
deriving DecidableEq

/-- Effect of `prisma.emailJob.update` as issued by
`updateEmailJobStatus` on one row: `status` is always written,
`sentTime`/`errorMessage` only when defined. -/
def applyJobPatch (r : EmailJobRow) (status : JobStatus)
    (opts : UpdateOptions) : EmailJobRow :=
  { r with
    status := status,
    sentTime := match opts.sentTime with
      | some t => some t
      | none => r.sentTime,
    errorMessage := match opts.errorMessage with
      | some e => some e
      | none => r.errorMessage }

/-- `updateEmailJobStatus(jobId, status, options)`: update the job row
whose `id` is `jobId` (the worker guards the call with a `findUnique`,
so on an absent id the table is unchanged, matching the no-write). -/
def updateEmailJobStatus (s : SystemState) (jobId : String)
    (status : JobStatus) (opts : UpdateOptions) : SystemState :=
  { s with jobs := s.jobs.map (fun r =>
      if r.id = jobId then applyJobPatch r status opts else r) }

/-- `findUnique` on the `EmailJob` table by primary key. -/
def findUniqueJob (jobs : List EmailJobRow) (id : String) : Option EmailJobRow :=
  jobs.find? (fun r => r.id = id)

/-- `getEmailJobCountByStatus`: `prisma.emailJob.count` over
`{scheduleId, status}`. -/
def getEmailJobCountByStatus (jobs : List EmailJobRow) (scheduleId : String)
    (status : JobStatus) : Nat :=
  jobs.countP (fun j => decide (j.scheduleId = scheduleId ∧ j.status = status))

/-- `updateScheduleCounts(scheduleId)`: recount sent and failed jobs of
the schedule and write `sentCount`, `failedCount` and a status of
`completed` when `sentCount + failedCount ≥ totalCount`, else
`in-progress`.  The `findUnique` guard makes it a no-op for an unknown
schedule id. -/
def updateScheduleCounts (s : SystemState) (scheduleId : String) : SystemState :=
  if s.schedule.id = scheduleId then
    let sentCount := getEmailJobCountByStatus s.jobs scheduleId .sent
    let failedCount := getEmailJobCountByStatus s.jobs scheduleId .failed
    let isCompleted := sentCount + failedCount ≥ s.schedule.totalCount
    { s with schedule :=
      { s.schedule with
        sentCount := sentCount,
        failedCount := failedCount,
        status := if isCompleted then .completed else .inProgress } }
  else s

/-- One hour in milliseconds (the source's `HOUR_IN_SECONDS = 3600`). -/
def hourMs : Int := 3600000

/-- Rate-limiter state for the current hour window of one sender:
`hourStartMs` is the window start, `kv` the value under the Redis key
`rate-limit:<hourWindow>:<sender>` (`none` = absent or expired), and
`store` the `rateLimitCounter` Store row for `(hourWindow, sender)`
(`none` = no row).  TTLs are not modelled; an eviction is represented
by `kv = none` in the state under consideration. -/
structure RateLimitState where
  hourStartMs : Int
  kv : Option Nat
  store : Option Nat
deriving DecidableEq

/-- Result record of `checkRateLimit`. -/
structure RateLimitCheckResult where
  canSend : Bool
  currentCount : Nat
  limit : Nat
  nextWindowTime : Int
deriving DecidableEq

/-- `checkRateLimit(sender, limit)`: read the Redis counter; if the key
is absent fall back to the Store row (or zero); allow when
`currentCount < limit`; report the next window start
(`getNextHourWindow`).  The source's `toString`/`parseInt` round-trip
on the count is the identity and is elided. -/
def checkRateLimit (st : RateLimitState) (limit : Nat) : RateLimitCheckResult :=
  let count : Nat :=
    match st.kv with
    | some c => c
    | none =>
      match st.store with
      | some c => c
      | none => 0
  { canSend := count < limit,
    currentCount := count,
    limit := limit,
    nextWindowTime := st.hourStartMs + hourMs }

/-- `incrementRateLimit(sender)`: Redis `INCR` (an absent key counts as
0, so the new value is `old + 1` from the key's point of view), then an
asynchronous upsert of the Store mirror to the new count;
`storeUpsertOk = false` models the swallowed upsert failure.  Returns
the new count and the new state.  Note the increment starts from the
Redis value alone — the Store fallback of `checkRateLimit` is never
consulted here. -/
def incrementRateLimit (st : RateLimitState) (storeUpsertOk : Bool) :
    Nat × RateLimitState :=
  let newCount := (match st.kv with | some c => c | none => 0) + 1
  (newCount,
   { st with
     kv := some newCount,
     store := if storeUpsertOk then some newCount else st.store })

/-- A JavaScript thrown value: an `Error` object with its `message`, or
any non-`Error` value. -/
inductive JsThrown
  | errObj (message : String)
  | nonErr
deriving DecidableEq

/-- Behaviour of `transporter.sendMail` (together with
`getEmailTransporter`) on the composed message: either it resolves with
a message id or it throws. -/
inductive TransportOutcome
  | ok (messageId : String)
  | throws (e : JsThrown)
deriving DecidableEq

/-- The tagged result returned by `sendEmail`. -/
structure SendEmailResult where
  success : Bool
  messageId : Option String := none
  error : Option String := none
deriving DecidableEq

/-- `sendEmail(recipient, subject, body, sender, attachments)`: compose
the mail and hand it to the transporter inside a `try`/`catch`; on a
throw, return `{success: false, error}` with the `Error`'s message, or
`"Unknown error"` for a non-`Error` throw.  The composed message
(HTML wrapper, attachments) only influences the transporter's
behaviour, which is the `transport` parameter, so the function is total
in every case. -/
def sendEmail (recipient subject body sender : String)
    (transport : TransportOutcome) : SendEmailResult :=
  let _ := (recipient, subject, body, sender)
  match transport with
  | .ok mid => { success := true, messageId := some mid }
  | .throws (.errObj m) => { success := false, error := some m }
  | .throws .nonErr => { success := false, error := some "Unknown error" }

/-- An attachment as carried in the job payload. -/
structure Attachment where
  filename : String
  contentBase64 : String
  contentType : String
deriving DecidableEq

/-- The BullMQ job payload `EmailJobData` of the source's `types`.
It carries the schedule id but no `EmailJob` row id. -/
structure EmailJobData where
  scheduleId : String
  userId : String
  recipient : String
  subject : String
  body : String
  scheduledTime : Int
  attachments : List Attachment := []
deriving DecidableEq

/-- The environment-derived constants of `queueService.ts`, at their
defaults: `WORKER_CONCURRENCY = 5`, `DELAY_BETWEEN_EMAILS_MS = 2000`,
`MAX_EMAILS_PER_HOUR = 200`. -/
structure WorkerConfig where
  workerConcurrency : Nat := 5
  delayBetweenEmailsMs : Nat := 2000
  maxEmailsPerHour : Nat := 200
deriving DecidableEq

/-- The fixed sender identity used by the worker. -/
def theSender : String := "noreply@reachinbox.app"

/-- Observable effects of one run of the worker processor, in program
order. -/
inductive WorkerEvent
  | checkRateLimitEv (sender : String) (limit : Nat)
  | moveToDelayed (delayMs : Int)
  | sendEmailEv (recipient subject body sender : String)
  | incrementRateLimitEv (sender : String)
  | findJob (id : String)
  | updateJobStatus (id : String) (status : JobStatus)
  | sleepMs (ms : Nat)
  | updateCounts (scheduleId : String)
deriving DecidableEq

/-- Does the event invoke the Mailer? -/
def WorkerEvent.isSend : WorkerEvent → Bool
  | .sendEmailEv _ _ _ _ => true
  | _ => false

/-- Does the event invoke `incrementRateLimit`? -/
def WorkerEvent.isIncrement : WorkerEvent → Bool
  | .incrementRateLimitEv _ => true
  | _ => false

/-- Does the event write a job-status update? -/
def WorkerEvent.isUpdateJob : WorkerEvent → Bool
  | .updateJobStatus _ _ => true
  | _ => false

instance {ε α : Type} [DecidableEq ε] [DecidableEq α] : DecidableEq (Except ε α) :=
  fun a b =>
    match a, b with
    | .ok x, .ok y =>
      if h : x = y then .isTrue (h ▸ rfl) else .isFalse (fun hc => by cases hc; exact h rfl)
    | .error x, .error y =>
      if h : x = y then .isTrue (h ▸ rfl) else .isFalse (fun hc => by cases hc; exact h rfl)
    | .ok _, .error _ => .isFalse (fun hc => by cases hc)
    | .error _, .ok _ => .isFalse (fun hc => by cases hc)

/-- Result of one run of the worker processor: the event list, the new
Store state, the new rate-limit state, and the outcome (`.error`
models the processor function throwing, which makes BullMQ record a
failed attempt and retry under the queue's options). -/
structure ProcessResult where
  events : List WorkerEvent
  state : SystemState
  rl : RateLimitState
  outcome : Except String Unit
deriving DecidableEq

/-- One run of the BullMQ worker processor of `initializeWorker`, for a
job with payload `data`, at instant `nowMs` (the single instant
standing for the `Date.now()` / `new Date()` calls of the run), with
rate-limit state `rl`, transporter behaviour `transport`, Store state
`s`, and Store-mirror upsert outcome `storeUpsertOk`:

1. `checkRateLimit(sender, MAX_EMAILS_PER_HOUR)`; if denied and the
   next window is in the future, `moveToDelayed` and return;
2. `sendEmail`;
3. on success: `incrementRateLimit`, look up the job row **by the
   schedule id** (`job.data.scheduleId`), update it to `sent` when
   found, sleep `DELAY_BETWEEN_EMAILS_MS`, `updateScheduleCounts`;
4. on failure: look up by the schedule id, update to `failed` when
   found, `updateScheduleCounts`, throw; the surrounding `catch` looks
   up again, updates to `failed` again, and rethrows. -/
def processEmailJob (cfg : WorkerConfig) (data : EmailJobData) (nowMs : Int)
    (rl : RateLimitState) (transport : TransportOutcome) (s : SystemState)
    (storeUpsertOk : Bool) : ProcessResult :=
  let check := checkRateLimit rl cfg.maxEmailsPerHour
  let evCheck := WorkerEvent.checkRateLimitEv theSender cfg.maxEmailsPerHour
  if check.canSend = false ∧ check.nextWindowTime - nowMs > 0 then
    { events := [evCheck, .moveToDelayed (check.nextWindowTime - nowMs)],
      state := s, rl := rl, outcome := .ok () }
  else
    let result := sendEmail data.recipient data.subject data.body theSender transport
    let evSend := WorkerEvent.sendEmailEv data.recipient data.subject data.body theSender
    let found := (findUniqueJob s.jobs data.scheduleId).isSome
    if result.success then
      let incr := incrementRateLimit rl storeUpsertOk
      if found then
        { events := [evCheck, evSend, .incrementRateLimitEv theSender,
            .findJob data.scheduleId, .updateJobStatus data.scheduleId .sent,
            .sleepMs cfg.delayBetweenEmailsMs, .updateCounts data.scheduleId],
          state := updateScheduleCounts
            (updateEmailJobStatus s data.scheduleId .sent { sentTime := some nowMs })
            data.scheduleId,
          rl := incr.2, outcome := .ok () }
      else
        { events := [evCheck, evSend, .incrementRateLimitEv theSender,
            .findJob data.scheduleId,
            .sleepMs cfg.delayBetweenEmailsMs, .updateCounts data.scheduleId],
          state := updateScheduleCounts s data.scheduleId,
          rl := incr.2, outcome := .ok () }
    else
      let thrownMsg := match result.error with
        | some e => if e = "" then "Failed to send email" else e
        | none => "Failed to send email"
      if found then
        { events := [evCheck, evSend,
            .findJob data.scheduleId, .updateJobStatus data.scheduleId .failed,
            .updateCounts data.scheduleId,
            .findJob data.scheduleId, .updateJobStatus data.scheduleId .failed],
          state := updateEmailJobStatus
            (updateScheduleCounts
              (updateEmailJobStatus s data.scheduleId .failed
                { errorMessage := result.error })
              data.scheduleId)
            data.scheduleId .failed { errorMessage := some thrownMsg },
          rl := rl, outcome := .error thrownMsg }
      else
        { events := [evCheck, evSend,
            .findJob data.scheduleId, .updateCounts data.scheduleId,
            .findJob data.scheduleId],
          state := updateScheduleCounts s data.scheduleId,
          rl := rl, outcome := .error thrownMsg }

/-- The `backoff` part of the queue's default job options. -/
structure BackoffOptions where
  kind : String
  delay : Nat
deriving DecidableEq

/-- The `defaultJobOptions` of `initializeQueue`. -/
structure DefaultJobOptions where
  attempts : Nat
  backoff : BackoffOptions
  removeOnCompleteAge : Nat
  removeOnFailAge : Nat
deriving DecidableEq

/-- The options the `emails` queue is created with: 3 attempts,
exponential backoff with base 2000 ms, completed jobs kept 1 h, failed
jobs kept 24 h. -/
def emailsQueueOptions : DefaultJobOptions :=
  { attempts := 3,
    backoff := { kind := "exponential", delay := 2000 },
    removeOnCompleteAge := 3600,
    removeOnFailAge := 86400 }

/-- The queue library's retry contract under an `attempts` budget (the
behaviour BullMQ documents for the options of `initializeQueue`): the
processor is run; a run that throws consumes an attempt and is retried
(after backoff) while the budget lasts; a run that returns stops the
job.  `throwsAt k` says whether the `k`-th run (0-based) throws.
Returns the number of processor runs — each of which reaches the Mailer
exactly once when the rate limiter admits it. -/
def bullmqRuns : (attempts : Nat) → (throwsAt : Nat → Bool) → (k : Nat) → Nat
  | 0, _, _ => 0
  | n + 1, throwsAt, k => if throwsAt k then 1 + bullmqRuns n throwsAt (k + 1) else 1

/-- The options `scheduleEmailJob` passes to `queue.add`. -/
structure QueueAddOptions where
  delay : Int
  jobId : String
deriving DecidableEq

/-- `scheduleEmailJob(data)`: compute `delay = scheduledTime - now` and
enqueue unconditionally with `delay` clamped to `max(0, delay)` and a
job id built from the schedule id, recipient and the current instant.
There is no rejection path. -/
def scheduleEmailJob (data : EmailJobData) (nowMs : Int) : QueueAddOptions :=
  let delay := data.scheduledTime - nowMs
  { delay := max 0 delay,
    jobId := data.scheduleId ++ "-" ++ data.recipient ++ "-" ++ toString nowMs }

/-- The writes the backend ever performs on an existing campaign's
Store state: a job-status update through `updateEmailJobStatus` (the
worker's success, failure and catch paths) and a recount through
`updateScheduleCounts`.  These are the only code paths that write the
`status`, `sentTime`, `errorMessage`, `sentCount`, `failedCount`
columns after creation; `processEmailJob`'s Store effect is a
composition of such steps. -/
inductive StoreStep : SystemState → SystemState → Prop
  | updateJob (s : SystemState) (jobId : String) (status : JobStatus)
      (opts : UpdateOptions) :
      StoreStep s (updateEmailJobStatus s jobId status opts)
  | recount (s : SystemState) (scheduleId : String) :
      StoreStep s (updateScheduleCounts s scheduleId)

/-- A Store state reachable from `s0` by backend writes. -/
def Reachable (s0 s : SystemState) : Prop :=
  Relation.ReflTransGen StoreStep s0 s

/-- The campaign-row invariant: the completed status is equivalent to
the stored counters summing to `totalCount`; auxiliarily, the number of
job rows of the campaign equals `totalCount` (which is at least 1). -/
def CampaignInv (s : SystemState) : Prop :=
  (s.schedule.status = .completed ↔
    s.schedule.sentCount + s.schedule.failedCount = s.schedule.totalCount) ∧
  s.jobs.countP (fun j => decide (j.scheduleId = s.schedule.id)) =
    s.schedule.totalCount ∧
  1 ≤ s.schedule.totalCount

/-- A string accepted by the email pattern is non-empty. -/
theorem emailRegexTest_ne_empty {s : String} (h : emailRegexTest s = true) :
    s ≠ "" := by
  intro he
  subst he
  exact absurd h (by decide)

/-- An accepted request yields at least one valid recipient. -/
theorem validRecipientsOf_length_pos (rs : List String) (hne : rs ≠ [])
    (hall : ∀ r ∈ rs, emailRegexTest (jsTrim r) = true) :
    1 ≤ (validRecipientsOf rs).length := by
  cases rs with
  | nil => exact absurd rfl hne
  | cons r rest =>
    have hr : emailRegexTest (jsTrim r) = true := hall r (by simp)
    have hne2 : jsTrim r ≠ "" := emailRegexTest_ne_empty hr
    simp [validRecipientsOf, hne2]

/-- Counting over a mapped list is unchanged when the map preserves the
predicate. -/
theorem countP_map_eq {α : Type} (l : List α) (f : α → α) (p : α → Bool)
    (h : ∀ a, p (f a) = p a) : (l.map f).countP p = l.countP p := by
  induction l with
  | nil => rfl
  | cons a t ih => simp [List.countP_cons, ih, h]

/-- Two disjoint sub-counts are bounded by a common super-count. -/
theorem countP_add_countP_le {α : Type} (l : List α) (p q r : α → Bool)
    (hp : ∀ a, p a = true → r a = true) (hq : ∀ a, q a = true → r a = true)
    (hpq : ∀ a, p a = true → q a = true → False) :
    l.countP p + l.countP q ≤ l.countP r := by
  induction l with
  | nil => simp
  | cons a t ih =>
    simp only [List.countP_cons]
    by_cases hpa : p a = true <;> by_cases hqa : q a = true
    · exact (hpq a hpa hqa).elim
    · have hra := hp a hpa
      simp [hpa, hqa, hra]
      omega
    · have hra := hq a hqa
      simp [hpa, hqa, hra]
      omega
    · by_cases hra : r a = true <;> simp [hpa, hqa, hra] <;> omega

/-- If every element satisfies the predicate the count is the length. -/
theorem countP_eq_length_of_all {α : Type} (l : List α) (p : α → Bool)
    (h : ∀ a ∈ l, p a = true) : l.countP p = l.length := by
  induction l with
  | nil => rfl
  | cons a t ih =>
    simp only [List.countP_cons, h a (by simp), if_true, List.length_cons]
    rw [ih (fun x hx => h x (by simp [hx]))]

/-- Inversion of the accepted path of `scheduleEmails`. -/
theorem scheduleEmails_ok_inv (req : ScheduleRequest) (sid : String)
    (jids : List String) (sch : EmailScheduleRow) (jobs : List EmailJobRow)
    (h : scheduleEmails req sid jids = .ok (sch, jobs)) :
    ∃ start, req.startTime = some start ∧
      sch = mkScheduleRow req sid start ∧
      jobs = mkJobRows req sid jids start ∧
      req.recipients ≠ [] ∧
      ∀ r ∈ req.recipients, emailRegexTest (jsTrim r) = true := by
  unfold scheduleEmails at h
  split at h
  · exact Except.noConfusion h
  · split at h
    · exact Except.noConfusion h
    · rename_i hrecips
      split at h
      · exact Except.noConfusion h
      · rename_i start hstart
        split at h
        · exact Except.noConfusion h
        · rename_i hfilter
          refine ⟨start, hstart, ?_, ?_, ?_, ?_⟩
          · exact (Prod.mk.injEq _ _ _ _ ▸ (Except.ok.injEq _ _ ▸ h)).1.symm
          · exact (Prod.mk.injEq _ _ _ _ ▸ (Except.ok.injEq _ _ ▸ h)).2.symm
          · intro hnil
            simp [hnil] at hrecips
          · intro r hr
            by_contra hbad
            cases hb : (req.recipients.filter (fun e => !emailRegexTest (jsTrim e))).isEmpty with
            | false => exact hfilter hb
            | true =>
              have hnil : req.recipients.filter (fun e => !emailRegexTest (jsTrim e)) = [] :=
                List.isEmpty_iff.mp hb
              have hmem : r ∈ req.recipients.filter (fun e => !emailRegexTest (jsTrim e)) := by
                rw [List.mem_filter]
                exact ⟨hr, by simpa using hbad⟩
              rw [hnil] at hmem
              exact absurd hmem (List.not_mem_nil r)

/-- A job-status update does not touch the schedule row. -/
theorem updateEmailJobStatus_schedule (s : SystemState) (jobId : String)
    (status : JobStatus) (opts : UpdateOptions) :
    (updateEmailJobStatus s jobId status opts).schedule = s.schedule := rfl

/-- A job-status update does not change which schedule a row belongs
to, so per-schedule row counts are stable. -/
theorem countP_scheduleId_updateJob (s : SystemState) (jobId : String)
    (status : JobStatus) (opts : UpdateOptions) (sid : String) :
    (updateEmailJobStatus s jobId status opts).jobs.countP
        (fun j => decide (j.scheduleId = sid)) =
      s.jobs.countP (fun j => decide (j.scheduleId = sid)) := by
  unfold updateEmailJobStatus
  apply countP_map_eq
  intro a
  by_cases h : a.id = jobId <;> simp [h, applyJobPatch]

/-- Every backend write preserves the campaign-row invariant. -/
theorem storeStep_preserves_inv {s t : SystemState} (hst : StoreStep s t)
    (hinv : CampaignInv s) : CampaignInv t := by
  obtain ⟨hiff, hcount, htot⟩ := hinv
  cases hst with
  | updateJob jobId status opts =>
    refine ⟨?_, ?_, ?_⟩
    · rw [updateEmailJobStatus_schedule]
      exact hiff
    · rw [updateEmailJobStatus_schedule, countP_scheduleId_updateJob]
      exact hcount
    · rw [updateEmailJobStatus_schedule]
      exact htot
  | recount scheduleId =>
    by_cases hid : s.schedule.id = scheduleId
    · have hle : getEmailJobCountByStatus s.jobs scheduleId .sent +
          getEmailJobCountByStatus s.jobs scheduleId .failed ≤
          s.schedule.totalCount := by
        rw [← hcount, hid]
        apply countP_add_countP_le
        · intro a ha
          simp only [decide_eq_true_eq] at ha ⊢
          exact ha.1
        · intro a ha
          simp only [decide_eq_true_eq] at ha ⊢
          exact ha.1
        · intro a ha hb
          simp only [decide_eq_true_eq] at ha hb
          rw [ha.2] at hb
          exact JobStatus.noConfusion hb.2
      by_cases hc : getEmailJobCountByStatus s.jobs scheduleId .sent +
          getEmailJobCountByStatus s.jobs scheduleId .failed ≥ s.schedule.totalCount
      · refine ⟨?_, ?_, ?_⟩
        · simp only [updateScheduleCounts, hid, if_true, if_pos hc]
          constructor
          · intro _
            omega
          · intro _
            trivial
        · simp only [updateScheduleCounts, hid, if_true, if_pos hc]
          rw [← hid]
          exact hcount
        · simp only [updateScheduleCounts, hid, if_true, if_pos hc]
          exact htot
      · refine ⟨?_, ?_, ?_⟩
        · simp only [updateScheduleCounts, hid, if_true, if_neg hc]
          constructor
          · intro hcon
            exact ScheduleStatus.noConfusion hcon
          · intro heq
            omega
        · simp only [updateScheduleCounts, hid, if_true, if_neg hc]
          rw [← hid]
          exact hcount
        · simp only [updateScheduleCounts, hid, if_true, if_neg hc]
          exact htot
    · simp only [updateScheduleCounts, hid, if_false]
      exact ⟨hiff, hcount, htot⟩

/-- The campaign-row invariant is preserved along any sequence of
backend writes. -/
theorem reachable_inv {s0 s : SystemState} (h0 : CampaignInv s0)
    (hr : Reachable s0 s) : CampaignInv s := by
  induction hr with
  | refl => exact h0
  | tail _ hbc ih => exact storeStep_preserves_inv hbc ih

/-- The freshly created campaign state satisfies the invariant. -/
theorem scheduleEmails_initial_inv (req : ScheduleRequest) (sid : String)
    (jids : List String) (sch : EmailScheduleRow) (jobs : List EmailJobRow)
    (h : scheduleEmails req sid jids = .ok (sch, jobs)) :
    CampaignInv ⟨sch, jobs⟩ := by
  obtain ⟨start, hstart, hsch, hjobs, hne, hall⟩ :=
    scheduleEmails_ok_inv req sid jids sch jobs h
  have hpos := validRecipientsOf_length_pos req.recipients hne hall
  subst hsch
  subst hjobs
  refine ⟨?_, ?_, ?_⟩
  · constructor
    · intro hc
      exact absurd hc (by simp [mkScheduleRow])
    · intro hc
      simp only [mkScheduleRow] at hc
      omega
  · have hall2 : ∀ j ∈ mkJobRows req sid jids start,
        (fun j => decide (j.scheduleId = (SystemState.mk (mkScheduleRow req sid start)
          (mkJobRows req sid jids start)).schedule.id)) j = true := by
      intro j hj
      simp only [mkJobRows, List.mem_map, List.mem_range] at hj
      obtain ⟨i, _, rfl⟩ := hj
      simp [mkScheduleRow]
    rw [countP_eq_length_of_all _ _ hall2]
    simp [mkJobRows, mkScheduleRow]
  · simpa [mkScheduleRow] using hpos

/-- A concrete accepted request with one recipient. -/
def req1 : ScheduleRequest :=
  { subject := "Hi", body := "B", recipients := ["a@x.io"],
    startTime := some 0, delayMs := 0, hourlyLimit := 10, userId := "u@x.io" }

/-- The schedule row created for `req1`. -/
def sched1 : EmailScheduleRow :=
  { id := "s1", userId := "u@x.io", subject := "Hi", body := "B",
    recipients := ["a@x.io"], startTime := 0, delayMs := 0, hourlyLimit := 10,
    totalCount := 1, sentCount := 0, failedCount := 0, status := .scheduled }

/-- The single job row created for `req1`. -/
def job1 : EmailJobRow :=
  { id := "j1", scheduleId := "s1", userId := "u@x.io", recipient := "a@x.io",
    subject := "Hi", body := "B", scheduledTime := 0, status := .pending,
    sentTime := none, errorMessage := none }

/-- The BullMQ payload the controller enqueues for `req1`'s recipient:
it carries the schedule id `"s1"`, not the job row id `"j1"`. -/
def data1 : EmailJobData :=
  { scheduleId := "s1", userId := "u@x.io", recipient := "a@x.io",
    subject := "Hi", body := "B", scheduledTime := 0 }

/-- A rate-limit state with no Redis key and no Store row. -/
def rlEmpty : RateLimitState := { hourStartMs := 0, kv := none, store := none }

/-- The worker configuration at its defaults. -/
def defaultCfg : WorkerConfig := {}

example : scheduleEmails req1 "s1" ["j1"] = .ok (sched1, [job1]) := by decide

/-- Claim C3: for every reachable state of a campaign created by the
controller, the campaign row has `status = completed` if and only if
`sentCount + failedCount = totalCount`; a read observing `completed`
therefore observes the count equality in the same read. -/
theorem c3_completed_iff_counts_total (req : ScheduleRequest) (sid : String)
    (jids : List String) (sch : EmailScheduleRow) (jobs : List EmailJobRow)
    (s : SystemState)
    (hok : scheduleEmails req sid jids = .ok (sch, jobs))
    (hreach : Reachable ⟨sch, jobs⟩ s) :
    s.schedule.status = .completed ↔
      s.schedule.sentCount + s.schedule.failedCount = s.schedule.totalCount :=
  (reachable_inv (scheduleEmails_initial_inv req sid jids sch jobs hok) hreach).1

/-- Witness for C3 at a concrete campaign after one recount write. -/
theorem c3_completed_iff_counts_total_witness :
    (updateScheduleCounts ⟨sched1, [job1]⟩ "s1").schedule.status =
        ScheduleStatus.completed ↔
      (updateScheduleCounts ⟨sched1, [job1]⟩ "s1").schedule.sentCount +
          (updateScheduleCounts ⟨sched1, [job1]⟩ "s1").schedule.failedCount =
        (updateScheduleCounts ⟨sched1, [job1]⟩ "s1").schedule.totalCount :=
  c3_completed_iff_counts_total req1 "s1" ["j1"] sched1 [job1] _ (by decide)
    (Relation.ReflTransGen.single (StoreStep.recount ⟨sched1, [job1]⟩ "s1"))

/-- Claim C8: in an accepted campaign the i-th created job is scheduled
at `startTime + i * delayMs`. -/
theorem c8_scheduledTime_arithmetic (req : ScheduleRequest) (sid : String)
    (jids : List String) (sch : EmailScheduleRow) (jobs : List EmailJobRow)
    (hok : scheduleEmails req sid jids = .ok (sch, jobs))
    (i : Nat) (hi : i < jobs.length) :
    (jobs.get ⟨i, hi⟩).scheduledTime = sch.startTime + (i : Int) * sch.delayMs := by
  obtain ⟨start, hstart, hsch, hjobs, _, _⟩ :=
    scheduleEmails_ok_inv req sid jids sch jobs hok
  subst hsch
  subst hjobs
  simp [mkJobRows, mkScheduleRow]

/-- A concrete accepted request with two recipients and a 2000 ms
stagger. -/
def req8 : ScheduleRequest :=
  { subject := "Hi", body := "B", recipients := ["a@x.io", "b@x.io"],
    startTime := some 1000, delayMs := 2000, hourlyLimit := 10, userId := "u@x.io" }

/-- The schedule row created for `req8`. -/
def sched8 : EmailScheduleRow :=
  { id := "s8", userId := "u@x.io", subject := "Hi", body := "B",
    recipients := ["a@x.io", "b@x.io"], startTime := 1000, delayMs := 2000,
    hourlyLimit := 10, totalCount := 2, sentCount := 0, failedCount := 0,
    status := .scheduled }

/-- The job rows created for `req8`. -/
def jobs8 : List EmailJobRow :=
  [{ id := "j81", scheduleId := "s8", userId := "u@x.io", recipient := "a@x.io",
     subject := "Hi", body := "B", scheduledTime := 1000, status := .pending,
     sentTime := none, errorMessage := none },
   { id := "j82", scheduleId := "s8", userId := "u@x.io", recipient := "b@x.io",
     subject := "Hi", body := "B", scheduledTime := 3000, status := .pending,
     sentTime := none, errorMessage := none }]

/-- Witness for C8: the second job of `req8` is due at
`1000 + 1 * 2000`. -/
theorem c8_scheduledTime_arithmetic_witness :
    (jobs8.get ⟨1, by decide⟩).scheduledTime =
      sched8.startTime + (1 : Int) * sched8.delayMs :=
  c8_scheduledTime_arithmetic req8 "s8" ["j81", "j82"] sched8 jobs8 (by decide) 1
    (by decide)

/-- ASCII lowercase character code, the comparison key for
case-insensitive deduplication. -/
def lowerCode (c : Char) : Nat :=
  if 65 ≤ c.toNat ∧ c.toNat ≤ 90 then c.toNat + 32 else c.toNat

/-- The recipient-list cardinality the spec prescribes for `Submit`:
recipients after trimming and case-insensitive (lowercase)
deduplication.  This definition follows the spec's words, for
comparison with what the code computes. -/
def specDedupCount (recipients : List String) : Nat :=
  ((recipients.map (fun r => (jsTrim r).data.map lowerCode)).dedup).length

/-- A request submitting the same address twice, differing only in case
and surrounding whitespace. -/
def req6 : ScheduleRequest :=
  { subject := "Hi", body := "B", recipients := ["a@x.io", " A@x.io"],
    startTime := some 0, delayMs := 0, hourlyLimit := 10, userId := "u@x.io" }

/-- Counterexample to claim C6: the controller accepts `req6` and
creates `totalCount = 2` and two job rows, although the recipient list
after trimming and lowercase deduplication has exactly one element —
no deduplication happens, contradicting the claim that a duplicate
differing only in case or whitespace yields exactly one job. -/
theorem c6_no_dedup_counterexample :
    ((scheduleEmails req6 "s6" ["j61", "j62"]).map
        (fun p => (p.1.totalCount, p.2.length))) = .ok (2, 2) ∧
      specDedupCount req6.recipients = 1 ∧ (2 : Nat) ≠ 1 := by
  decide

/-- Claim C6 as amended: the controller trims each recipient and drops
empty results but performs no deduplication; `totalCount` and the
number of created job rows both equal the length of the trimmed
recipient list. -/
theorem c6_totalCount_eq_trimmed_recipients (req : ScheduleRequest)
    (sid : String) (jids : List String) (sch : EmailScheduleRow)
    (jobs : List EmailJobRow)
    (hok : scheduleEmails req sid jids = .ok (sch, jobs)) :
    sch.totalCount = (validRecipientsOf req.recipients).length ∧
      jobs.length = (validRecipientsOf req.recipients).length := by
  obtain ⟨start, hstart, hsch, hjobs, _, _⟩ :=
    scheduleEmails_ok_inv req sid jids sch jobs hok
  subst hsch
  subst hjobs
  exact ⟨rfl, by simp [mkJobRows]⟩

/-- Witness for the amended C6 at `req6`: both counts are 2 (the
duplicate is kept). -/
theorem c6_totalCount_eq_trimmed_recipients_witness :
    (2 : Nat) = (validRecipientsOf req6.recipients).length ∧
      (2 : Nat) = (validRecipientsOf req6.recipients).length := by
  have h := c6_totalCount_eq_trimmed_recipients req6 "s6" ["j61", "j62"]
    (mkScheduleRow req6 "s6" 0) (mkJobRows req6 "s6" ["j61", "j62"] 0) (by decide)
  exact ⟨h.1, h.2⟩

/-- Counterexample to claim C4: with the Redis key evicted
(`kv = none`) and a Store row holding 50, the first `Check` reseeds and
reports 50, but `Increment` restarts the Redis counter at 1 (it never
consults the Store), so the second `Check` reports 1, not 51. -/
theorem c4_check_increment_check_counterexample :
    (checkRateLimit { hourStartMs := 0, kv := none, store := some 50 } 200).currentCount = 50 ∧
      (checkRateLimit
          (incrementRateLimit { hourStartMs := 0, kv := none, store := some 50 } true).2
          200).currentCount = 1 ∧
      (1 : Nat) ≠ 50 + 1 := by
  decide

/-- Claim C4 as amended: `Check; Increment; Check` observes `current`
increased by exactly one whenever the Redis key is present, or absent
with no positive Store row to reseed from; in the remaining reseed case
the second `Check` observes 1 instead. -/
theorem c4_check_increment_check_plus_one (st : RateLimitState) (limit : Nat)
    (storeUpsertOk : Bool) (h : st.kv ≠ none ∨ st.store.getD 0 = 0) :
    (checkRateLimit (incrementRateLimit st storeUpsertOk).2 limit).currentCount =
      (checkRateLimit st limit).currentCount + 1 := by
  rcases hkv : st.kv with _ | c
  · rcases h with hk | hs
    · exact absurd hkv hk
    · rcases hst : st.store with _ | c2
      · simp [checkRateLimit, incrementRateLimit, hkv, hst]
      · rw [hst] at hs
        simp only [Option.getD] at hs
        simp [checkRateLimit, incrementRateLimit, hkv, hst, hs]
  · simp [checkRateLimit, incrementRateLimit, hkv]

/-- Witness for the amended C4: with the key present at 7, the second
`Check` reads 8. -/
theorem c4_check_increment_check_plus_one_witness :
    (checkRateLimit
        (incrementRateLimit { hourStartMs := 0, kv := some 7, store := none } true).2
        200).currentCount =
      (checkRateLimit { hourStartMs := 0, kv := some 7, store := none } 200).currentCount
        + 1 :=
  c4_check_increment_check_plus_one
    { hourStartMs := 0, kv := some 7, store := none } 200 true (Or.inl (by decide))

/-- Claim C2 as amended: every worker iteration calls
`checkRateLimit` with the sender and the environment constant
`MAX_EMAILS_PER_HOUR` as the limit, whatever the job, the Store state
(and hence the campaign's `hourlyLimit`), the rate-limit state and the
transporter are. -/
theorem c2_check_called_with_global_limit (cfg : WorkerConfig)
    (data : EmailJobData) (nowMs : Int) (rl : RateLimitState)
    (transport : TransportOutcome) (s : SystemState) (storeUpsertOk : Bool) :
    (processEmailJob cfg data nowMs rl transport s storeUpsertOk).events.head? =
      some (.checkRateLimitEv theSender cfg.maxEmailsPerHour) := by
  simp only [processEmailJob]
  split_ifs <;> rfl

/-- A concrete accepted request whose campaign asks for
`hourlyLimit = 5`. -/
def req2 : ScheduleRequest :=
  { subject := "Hi", body := "B", recipients := ["a@x.io"],
    startTime := some 0, delayMs := 0, hourlyLimit := 5, userId := "u@x.io" }

/-- The schedule row created for `req2`. -/
def sched2 : EmailScheduleRow :=
  { id := "s2", userId := "u@x.io", subject := "Hi", body := "B",
    recipients := ["a@x.io"], startTime := 0, delayMs := 0, hourlyLimit := 5,
    totalCount := 1, sentCount := 0, failedCount := 0, status := .scheduled }

/-- The job row created for `req2`. -/
def job2 : EmailJobRow :=
  { id := "j2", scheduleId := "s2", userId := "u@x.io", recipient := "a@x.io",
    subject := "Hi", body := "B", scheduledTime := 0, status := .pending,
    sentTime := none, errorMessage := none }

/-- The BullMQ payload for `req2`'s recipient. -/
def data2 : EmailJobData :=
  { scheduleId := "s2", userId := "u@x.io", recipient := "a@x.io",
    subject := "Hi", body := "B", scheduledTime := 0 }

/-- Counterexample to claim C2: for a campaign created with
`hourlyLimit = 5`, the worker's rate-limit check is still issued with
the global default 200, not 5. -/
theorem c2_rate_limit_ignores_campaign_limit_counterexample :
    scheduleEmails req2 "s2" ["j2"] = .ok (sched2, [job2]) ∧
      sched2.hourlyLimit = 5 ∧
      (processEmailJob defaultCfg data2 0 rlEmpty (.ok "m")
          ⟨sched2, [job2]⟩ true).events.head? =
        some (.checkRateLimitEv theSender 200) ∧
      (200 : Nat) ≠ 5 := by
  decide

/-- Index of the first event satisfying the predicate. -/
def firstIdx (p : WorkerEvent → Bool) : List WorkerEvent → Option Nat
  | [] => none
  | e :: es => if p e then some 0 else (firstIdx p es).map (· + 1)

/-- Claim C5 as amended: `incrementRateLimit` is invoked only after
`sendEmail` — whenever an increment event occurs in a worker
iteration, the Mailer call is the second event and the increment the
third, and the send succeeded. -/
theorem c5_increment_only_after_successful_send (cfg : WorkerConfig)
    (data : EmailJobData) (nowMs : Int) (rl : RateLimitState)
    (transport : TransportOutcome) (s : SystemState) (storeUpsertOk : Bool)
    (h : (firstIdx WorkerEvent.isIncrement
        (processEmailJob cfg data nowMs rl transport s storeUpsertOk).events).isSome
        = true) :
    firstIdx WorkerEvent.isSend
        (processEmailJob cfg data nowMs rl transport s storeUpsertOk).events = some 1 ∧
      firstIdx WorkerEvent.isIncrement
        (processEmailJob cfg data nowMs rl transport s storeUpsertOk).events = some 2 ∧
      (sendEmail data.recipient data.subject data.body theSender transport).success
        = true := by
  simp only [processEmailJob] at h ⊢
  split_ifs at h ⊢ with h1 h2 h3
  · simp [firstIdx, WorkerEvent.isIncrement] at h
  · exact ⟨by simp [firstIdx, WorkerEvent.isSend, WorkerEvent.isIncrement],
      by simp [firstIdx, WorkerEvent.isSend, WorkerEvent.isIncrement], h2⟩
  · exact ⟨by simp [firstIdx, WorkerEvent.isSend, WorkerEvent.isIncrement],
      by simp [firstIdx, WorkerEvent.isSend, WorkerEvent.isIncrement], h2⟩
  · simp [firstIdx, WorkerEvent.isIncrement, WorkerEvent.isSend,
      WorkerEvent.isUpdateJob] at h
  · simp [firstIdx, WorkerEvent.isIncrement, WorkerEvent.isSend,
      WorkerEvent.isUpdateJob] at h

/-- Witness for the amended C5 at a concrete successful iteration. -/
theorem c5_increment_only_after_successful_send_witness :
    firstIdx WorkerEvent.isSend
        (processEmailJob defaultCfg data1 0 rlEmpty (.ok "m")
          ⟨sched1, [job1]⟩ true).events = some 1 ∧
      firstIdx WorkerEvent.isIncrement
        (processEmailJob defaultCfg data1 0 rlEmpty (.ok "m")
          ⟨sched1, [job1]⟩ true).events = some 2 ∧
      (sendEmail data1.recipient data1.subject data1.body theSender
        (.ok "m")).success = true :=
  c5_increment_only_after_successful_send defaultCfg data1 0 rlEmpty (.ok "m")
    ⟨sched1, [job1]⟩ true (by decide)

/-- Counterexample to claim C5: in a concrete iteration that reaches
the send step, the Mailer call is event 1 and the rate-limit increment
event 2 — the increment comes strictly after the send, not before. -/
theorem c5_increment_before_send_counterexample :
    firstIdx WorkerEvent.isSend
        (processEmailJob defaultCfg data2 0 rlEmpty (.ok "m")
          ⟨sched2, [job2]⟩ true).events = some 1 ∧
      firstIdx WorkerEvent.isIncrement
        (processEmailJob defaultCfg data2 0 rlEmpty (.ok "m")
          ⟨sched2, [job2]⟩ true).events = some 2 ∧
      (1 : Nat) < 2 := by
  decide

/-- Claim C7 as amended: every Mailer failure makes the processor
record a failure (keyed by the schedule id) and rethrow, so the queue —
configured with `attempts = 3` and exponential backoff — retries; a
persistently failing job therefore receives one Mailer call per run and
3 runs in total, with no permanent/transient distinction. -/
theorem c7_failure_rethrown_and_retried (cfg : WorkerConfig)
    (data : EmailJobData) (nowMs : Int) (rl : RateLimitState)
    (s : SystemState) (storeUpsertOk : Bool) (e : JsThrown)
    (hgate : (checkRateLimit rl cfg.maxEmailsPerHour).canSend = true) :
    (∃ msg, (processEmailJob cfg data nowMs rl (.throws e) s
        storeUpsertOk).outcome = .error msg) ∧
      (processEmailJob cfg data nowMs rl (.throws e) s
        storeUpsertOk).events.countP WorkerEvent.isSend = 1 ∧
      emailsQueueOptions.attempts = 3 ∧
      bullmqRuns emailsQueueOptions.attempts (fun _ => true) 0 = 3 := by
  have hsucc : (sendEmail data.recipient data.subject data.body theSender
      (.throws e)).success = false := by
    cases e <;> rfl
  have hg : ¬ ((checkRateLimit rl cfg.maxEmailsPerHour).canSend = false ∧
      (checkRateLimit rl cfg.maxEmailsPerHour).nextWindowTime - nowMs > 0) := by
    rw [hgate]
    rintro ⟨hf, _⟩
    exact Bool.noConfusion hf
  simp only [processEmailJob]
  rw [if_neg hg, hsucc]
  by_cases hf : (findUniqueJob s.jobs data.scheduleId).isSome = true
  · rw [if_neg (by decide : ¬ (false = true)), if_pos hf]
    refine ⟨⟨_, rfl⟩, ?_, rfl, rfl⟩
    simp [List.countP_cons, WorkerEvent.isSend]
  · rw [if_neg (by decide : ¬ (false = true)), if_neg hf]
    refine ⟨⟨_, rfl⟩, ?_, rfl, rfl⟩
    simp [List.countP_cons, WorkerEvent.isSend]

/-- Witness for the amended C7 at a concrete failing iteration. -/
theorem c7_failure_rethrown_and_retried_witness :
    (∃ msg, (processEmailJob defaultCfg data1 0 rlEmpty
        (.throws (.errObj "boom")) ⟨sched1, [job1]⟩ true).outcome = .error msg) ∧
      (processEmailJob defaultCfg data1 0 rlEmpty (.throws (.errObj "boom"))
        ⟨sched1, [job1]⟩ true).events.countP WorkerEvent.isSend = 1 ∧
      emailsQueueOptions.attempts = 3 ∧
      bullmqRuns emailsQueueOptions.attempts (fun _ => true) 0 = 3 :=
  c7_failure_rethrown_and_retried defaultCfg data1 0 rlEmpty ⟨sched1, [job1]⟩
    true (.errObj "boom") (by decide)

/-- Counterexample to claim C7: a permanently failing send (SMTP 5xx)
makes the processor throw, so under the queue's `attempts = 3` the
Mailer is called on 3 runs — not exactly once with no further calls. -/
theorem c7_permanent_failure_retried_counterexample :
    (processEmailJob defaultCfg data1 0 rlEmpty
        (.throws (.errObj "550 user unknown")) ⟨sched1, [job1]⟩ true).outcome =
      .error "550 user unknown" ∧
      (processEmailJob defaultCfg data1 0 rlEmpty
        (.throws (.errObj "550 user unknown")) ⟨sched1, [job1]⟩ true).events.countP
        WorkerEvent.isSend = 1 ∧
      bullmqRuns emailsQueueOptions.attempts (fun _ => true) 0 = 3 ∧
      (3 : Nat) ≠ 1 := by
  decide

/-- Claim C9 as amended: `sendEmail` always returns a tagged result —
`{success: true, messageId}` on success, `{success: false, error}` on a
throw — and never propagates an exception; the error string is the
thrown `Error`'s message (so it is non-empty exactly when that message
is, with `"Unknown error"` substituted for non-`Error` throws). -/
theorem c9_sendEmail_total_tagged (recipient subject body sender : String)
    (t : TransportOutcome) :
    ((sendEmail recipient subject body sender t).success = true ∧
        ((sendEmail recipient subject body sender t).messageId).isSome = true ∧
        (sendEmail recipient subject body sender t).error = none ∨
      (sendEmail recipient subject body sender t).success = false ∧
        (sendEmail recipient subject body sender t).messageId = none ∧
        ((sendEmail recipient subject body sender t).error).isSome = true) ∧
      ∀ m, t = .throws (.errObj m) → m ≠ "" →
        (sendEmail recipient subject body sender t).error = some m := by
  constructor
  · cases t with
    | ok mid => exact Or.inl ⟨rfl, rfl, rfl⟩
    | throws e => cases e <;> exact Or.inr ⟨rfl, rfl, rfl⟩
  · intro m hm _
    subst hm
    rfl

/-- Witness for the amended C9 at a concrete throwing transporter. -/
theorem c9_sendEmail_total_tagged_witness :
    (sendEmail "a@x.io" "Hi" "B" theSender (.throws (.errObj "boom"))).error =
      some "boom" :=
  (c9_sendEmail_total_tagged "a@x.io" "Hi" "B" theSender
    (.throws (.errObj "boom"))).2 "boom" rfl (by decide)

/-- Counterexample to claim C9: when the transporter throws an `Error`
whose message is empty, `sendEmail` returns the tagged failure with an
empty error string — not a non-empty error message. -/
theorem c9_empty_error_message_counterexample :
    (sendEmail "a@x.io" "Hi" "B" theSender (.throws (.errObj ""))).success
        = false ∧
      (sendEmail "a@x.io" "Hi" "B" theSender (.throws (.errObj ""))).error
        = some "" ∧
      String.length "" = 0 := by
  decide

/-- Claim C10: the enqueue delay is `max(0, scheduledTime − now)`, so a
past `scheduledTime` yields delay 0 (immediately due) and the delay is
never negative; there is no rejection path. -/
theorem c10_delay_clamped (data : EmailJobData) (nowMs : Int) :
    0 ≤ (scheduleEmailJob data nowMs).delay ∧
      (data.scheduledTime < nowMs → (scheduleEmailJob data nowMs).delay = 0) ∧
      (scheduleEmailJob data nowMs).delay = max 0 (data.scheduledTime - nowMs) := by
  refine ⟨?_, fun h => ?_, ?_⟩
  · simp only [scheduleEmailJob]
    exact le_max_left _ _
  · simp only [scheduleEmailJob]
    exact max_eq_left (by omega)
  · rfl

/-- Witness for C10: a job due at 0 enqueued at instant 5 gets delay 0. -/
theorem c10_delay_clamped_witness : (scheduleEmailJob data1 5).delay = 0 :=
  (c10_delay_clamped data1 5).2.1 (by decide)

/-- Claim C1 (code bug): for the concrete campaign of `req1`, the
Mailer succeeds, yet the worker looks the job row up by the schedule id
`"s1"` (the payload carries no job row id), finds nothing — the row id
is `"j1"` — performs no `updateJobStatus` write, and returns success;
the job row stays `pending` with `sentTime = none`, so the promised
CAS-guarded transition to `sent` with `sentTime` set never happens. -/
theorem c1_worker_success_leaves_job_row_pending :
    scheduleEmails req1 "s1" ["j1"] = .ok (sched1, [job1]) ∧
      job1.id ≠ data1.scheduleId ∧
      (processEmailJob defaultCfg data1 0 rlEmpty (.ok "mid")
        ⟨sched1, [job1]⟩ true).state.jobs = [job1] ∧
      job1.status = .pending ∧
      job1.sentTime = none ∧
      (processEmailJob defaultCfg data1 0 rlEmpty (.ok "mid")
        ⟨sched1, [job1]⟩ true).events.countP WorkerEvent.isUpdateJob = 0 ∧
      (processEmailJob defaultCfg data1 0 rlEmpty (.ok "mid")
        ⟨sched1, [job1]⟩ true).outcome = .ok () := by
  decide

end EmailScheduler
